import Mathlib

/-!
# NexoTime habit / gamification engine — shallow embedding

This file embeds, as executable Lean definitions, the habit-completion,
streak, XP/level and achievement logic of the NexoTime backend
(`gamification.py`, the habit-log slices of `main.py` and `bot.py`, and the
midnight reconciliation of `scheduler.py`), and proves properties of the
specification against it.

Modelling conventions:
  * Database rows (`User`, `Habit`, `HabitLog`) are Lean structures holding
    the engine-relevant columns; presentation columns (names, icons, …) are
    omitted because no modelled function reads them.
  * The database session is explicit state: each function takes and returns
    the lists of rows it queries or mutates.
  * Calendar dates are day ordinals (`Nat`); `yesterday` is `d - 1` and the
    weekday of day `d` is `dayNames[d % 7]` with day 0 a Monday, matching
    Python's Monday-based `date.weekday()`.
  * Instants (`datetime.utcnow()`) are an explicit `now : Nat` parameter.
  * Quantities are `Nat`.  The source stores them as floats but only ever
    adds 1 and compares with a target, operations that are exact for the
    integral values involved.
  * XP multipliers (floats 1.0, 1.5, 1.75, 2.0, 2.5, 3.0 in the source) are
    represented in quarter units (4, 6, 7, 8, 10, 12).  All table values are
    dyadic rationals with denominator 4, represented exactly by binary
    floats, and the bases they multiply are small integers, so
    `int(base * mult)` in Python equals `base * quarters / 4` in `Nat`
    arithmetic.
-/

namespace NexoTime

/-- Gamification-relevant columns of `models.User`. -/
structure User where
  id : Nat
  xp : Nat
  level : Nat
  globalStreak : Nat
  bestGlobalStreak : Nat
  mode : String
  telegramId : Option String
deriving Repr, DecidableEq

/-- Engine-relevant columns of `models.Habit`. -/
structure Habit where
  id : Nat
  userId : Nat
  habitType : String
  targetQuantity : Option Nat
  frequency : String
  specificDays : Option (List String)
  currentStreak : Nat
  bestStreak : Nat
  active : Bool
  archived : Bool
deriving Repr, DecidableEq

/-- Engine-relevant columns of `models.HabitLog` (one row per habit per day). -/
structure HabitLog where
  userId : Nat
  habitId : Nat
  date : Nat
  completed : Bool
  quantityLogged : Nat
  note : Option String
  completedAt : Option Nat
deriving Repr, DecidableEq

/-! ## Leveling calculator (`gamification.py`, §"SISTEMA DE NIVELES") -/

/-- `xp_for_next_level(level)`: XP needed to go from `level` to the next. -/
def xp_for_next_level (level : Nat) : Nat := level * 100

/-- The loop of `calculate_level`: the running level is `k + 1` (the source
starts at level 1 and only increments, so the requirement subtracted each
iteration is positive and the remainder strictly decreases). -/
def levelAux (k : Nat) (rem : Nat) : Nat :=
  if h : xp_for_next_level (k + 1) ≤ rem then
    levelAux (k + 1) (rem - xp_for_next_level (k + 1))
  else
    k + 1
termination_by rem
decreasing_by
  simp only [xp_for_next_level] at h ⊢
  omega

/-- The same loop driven by an explicit fuel counter, so that it is
structurally recursive and computable inside the kernel.  Every iteration
removes `(k + 1) * 100 ≥ 100` XP from the remainder, so a fuel of
`remainder / 100 + 1` never runs out; `levelLoop_eq_levelAux` proves the
two renderings of the loop equal. -/
def levelLoop : Nat → Nat → Nat → Nat
  | 0, k, _ => k + 1
  | fuel + 1, k, rem =>
    if xp_for_next_level (k + 1) ≤ rem then
      levelLoop fuel (k + 1) (rem - xp_for_next_level (k + 1))
    else k + 1

/-- `calculate_level(total_xp)`: level reached with `total_xp` cumulative XP. -/
def calculate_level (total_xp : Nat) : Nat :=
  levelLoop (total_xp / 100 + 1) 0 total_xp

/-- `XP_REWARDS.get(action, 0)`: base XP of each rewarded action. -/
def XP_REWARDS (action : String) : Nat :=
  match action with
  | "habit_complete" => 10
  | "all_habits_complete" => 25
  | "routine_complete" => 15
  | "journal_entry" => 10
  | "gratitude_entry" => 10
  | "mood_log" => 5
  | "sleep_log" => 5
  | "exercise_log" => 15
  | "reflection_complete" => 20
  | "task_complete" => 10
  | "pomodoro_complete" => 10
  | "challenge_complete" => 50
  | _ => 0

/-- `STREAK_MULTIPLIERS`, with multipliers in quarter units
(7 → 1.5 = 6/4, 14 → 1.75 = 7/4, 30 → 2.0 = 8/4, 60 → 2.5 = 10/4,
100 → 3.0 = 12/4), listed in the sorted order the source iterates. -/
def STREAK_MULTIPLIERS : List (Nat × Nat) :=
  [(7, 6), (14, 7), (30, 8), (60, 10), (100, 12)]

/-- `get_streak_multiplier(streak)` in quarter units: the source folds over
the sorted table keeping the multiplier of the largest threshold ≤ streak,
defaulting to 1.0 (= 4/4). -/
def get_streak_multiplier_q4 (streak : Nat) : Nat :=
  STREAK_MULTIPLIERS.foldl (fun m p => if p.1 ≤ streak then p.2 else m) 4

/-- The dictionary `award_xp` returns.  The source returns `{"xp_earned": 0}`
for unknown actions and adds `new_level` / `new_title` only on level-up;
here absent keys are `none` / defaults. -/
structure XpResult where
  xp_earned : Nat
  multiplier_q4 : Nat
  total_xp : Nat
  leveled_up : Bool
  new_level : Option Nat
deriving Repr, DecidableEq

/-- `award_xp(db, user, action, streak)`: returns the persisted user together
with the result dictionary. -/
def award_xp (user : User) (action : String) (streak : Nat) : User × XpResult :=
  let base_xp := XP_REWARDS action
  if base_xp = 0 then
    (user, { xp_earned := 0, multiplier_q4 := 4, total_xp := 0,
             leveled_up := false, new_level := none })
  else
    let multiplier := if 0 < streak then get_streak_multiplier_q4 streak else 4
    let total_xp := base_xp * multiplier / 4
    let old_level := user.level
    let xp' := user.xp + total_xp
    let new_level := calculate_level xp'
    let leveled_up := old_level < new_level
    let user' : User :=
      { user with xp := xp', level := if leveled_up then new_level else user.level }
    (user', { xp_earned := base_xp, multiplier_q4 := multiplier, total_xp := total_xp,
              leveled_up := leveled_up,
              new_level := if leveled_up then some new_level else none })

/-! ## Completion ledger queries (SQLAlchemy queries as list scans) -/

/-- `db.query(Habit).filter(Habit.id == habitId, Habit.user_id == userId).first()` -/
def findHabit (habits : List Habit) (userId habitId : Nat) : Option Habit :=
  habits.find? (fun h => h.id == habitId && h.userId == userId)

/-- `db.query(HabitLog).filter(HabitLog.habit_id == habitId, HabitLog.date == d).first()` -/
def findLog (logs : List HabitLog) (habitId d : Nat) : Option HabitLog :=
  logs.find? (fun l => l.habitId == habitId && l.date == d)

/-- Existence of a completed log for a habit on a day
(`.filter(habit_id ==, date ==, completed == True).first()` used as a test). -/
def hasCompletedLog (logs : List HabitLog) (habitId d : Nat) : Bool :=
  logs.any (fun l => l.habitId == habitId && l.date == d && l.completed)

/-- Write back a mutated log row: replace the first row keyed by
(habitId, date) — rows are unique per (habit, date) by the table's
constraint — or insert it (`db.add`) when absent. -/
def upsertLog : List HabitLog → Nat → Nat → HabitLog → List HabitLog
  | [], _, _, row => [row]
  | l :: ls, habitId, d, row =>
    if l.habitId == habitId && l.date == d then row :: ls
    else l :: upsertLog ls habitId d row

/-- Write back a mutated habit row (keyed by its unique id). -/
def replaceHabit (habits : List Habit) (row : Habit) : List Habit :=
  habits.map (fun h => if h.id == row.id then row else h)

/-- `db.query(HabitLog).filter(user_id ==, completed == True).count()` -/
def countCompletedLogs (logs : List HabitLog) (userId : Nat) : Nat :=
  (logs.filter (fun l => l.userId == userId && l.completed)).length

/-! ## Habit applicability resolver (`habit_applies_today`) -/

/-- Python's Monday-based weekday names, indexed by `d % 7`. -/
def weekday_name (d : Nat) : String :=
  ["mon", "tue", "wed", "thu", "fri", "sat", "sun"].getD (d % 7) "mon"

/-- `habit_applies_today(habit, check_date)`: `daily` → true;
`specific_days` with a non-empty day list → membership of the weekday name;
every other case (including `times_per_week` and unrecognized frequencies)
falls through to `True`. -/
def habit_applies_today (habit : Habit) (check_date : Nat) : Bool :=
  if habit.frequency == "daily" then true
  else if habit.frequency == "specific_days"
      && !(habit.specificDays.getD []).isEmpty then
    (habit.specificDays.getD []).contains (weekday_name check_date)
  else true

/-! ## Streak engine (`update_habit_streak`, `update_global_streak`,
`check_all_completed`) -/

/-- `update_habit_streak(db, habit, completed, log_date)`, returning the
persisted habit row. -/
def update_habit_streak (logs : List HabitLog) (habit : Habit)
    (completed : Bool) (log_date : Nat) : Habit :=
  if completed then
    let habit1 :=
      if hasCompletedLog logs habit.id (log_date - 1) then
        { habit with currentStreak := habit.currentStreak + 1 }
      else
        { habit with currentStreak := 1 }
    if habit1.bestStreak < habit1.currentStreak then
      { habit1 with bestStreak := habit1.currentStreak }
    else habit1
  else
    { habit with currentStreak := 0 }

/-- `db.query(Habit).filter(user_id ==, active == True, archived == False)` -/
def active_habits (habits : List Habit) (userId : Nat) : List Habit :=
  habits.filter (fun h => h.userId == userId && h.active && !h.archived)

/-- `check_all_completed(db, user, check_date)`: every active, non-archived
habit that applies on the date has a completed log (the source's early
`return False` loop; vacuously true when nothing applies). -/
def check_all_completed (habits : List Habit) (logs : List HabitLog)
    (userId check_date : Nat) : Bool :=
  (active_habits habits userId).all
    (fun h => !habit_applies_today h check_date || hasCompletedLog logs h.id check_date)

/-- `update_global_streak(db, user, log_date)`, returning the persisted user. -/
def update_global_streak (habits : List Habit) (logs : List HabitLog)
    (user : User) (log_date : Nat) : User :=
  let active := active_habits habits user.id
  if active.isEmpty then user
  else
    let all_completed := active.all
      (fun h => !habit_applies_today h log_date || hasCompletedLog logs h.id log_date)
    if all_completed then
      let yesterday_all := check_all_completed habits logs user.id (log_date - 1)
      let user1 :=
        if yesterday_all then { user with globalStreak := user.globalStreak + 1 }
        else { user with globalStreak := 1 }
      if user1.bestGlobalStreak < user1.globalStreak then
        { user1 with bestGlobalStreak := user1.globalStreak }
      else user1
    else user

/-! ## Achievement evaluator (`check_and_unlock_achievements`, `_unlock`) -/

/-- The seeded achievement catalog as `code ↦ xp_reward`
(`ACHIEVEMENTS_DEFINITIONS` after `seed_achievements`). -/
def ACHIEVEMENTS_XP : List (String × Nat) :=
  [("streak_3", 25), ("streak_7", 50), ("streak_14", 100), ("streak_30", 200),
   ("streak_60", 400), ("streak_100", 750), ("streak_365", 2000),
   ("first_habit", 10), ("habits_50", 50), ("habits_100", 100),
   ("habits_500", 300), ("habits_1000", 500),
   ("early_bird", 30), ("night_owl", 30), ("hydrated", 30), ("journaler", 30),
   ("grateful", 30), ("reflective", 50), ("pomodoro_master", 75),
   ("level_5", 0), ("level_10", 0), ("level_20", 0), ("level_50", 0),
   ("week_1", 15), ("month_1", 50), ("month_6", 200), ("year_1", 500)]

/-- The state the achievement evaluator reads and writes: the user row, the
user's lifetime completed-log count, the account age in days
(`(utcnow() - created_at).days`, both computed once per call in the source)
and the set of already-unlocked achievement codes (the `UserAchievement`
rows). -/
structure AchState where
  user : User
  totalCompleted : Nat
  daysSinceSignup : Nat
  unlocked : List String
deriving Repr, DecidableEq

/-- `_unlock(db, user, code)`: look the achievement up in the catalog
(`None` → no-op), re-check the `UserAchievement` table, insert the join row,
and grant its XP with an unconditional re-level.  Returns the persisted
state and the unlocked code (`None` when skipped). -/
def unlockOne (s : AchState) (code : String) : AchState × Option String :=
  match ACHIEVEMENTS_XP.lookup code with
  | none => (s, none)
  | some reward =>
    if s.unlocked.contains code then (s, none)
    else
      let user' :=
        if 0 < reward then
          { s.user with xp := s.user.xp + reward,
                        level := calculate_level (s.user.xp + reward) }
        else s.user
      ({ s with user := user', unlocked := code :: s.unlocked }, some code)

/-- Which user-state field an unlock condition compares its threshold to. -/
inductive CheckKind where
  | streak
  | habits
  | level
  | signupAge
deriving Repr, DecidableEq

/-- The four check dictionaries of `check_and_unlock_achievements`, in the
source's iteration order: `streak_checks`, then `habit_checks`, then
`level_checks`, then `time_checks`. -/
def achievement_checks : List (CheckKind × String × Nat) :=
  [(.streak, "streak_3", 3), (.streak, "streak_7", 7), (.streak, "streak_14", 14),
   (.streak, "streak_30", 30), (.streak, "streak_60", 60),
   (.streak, "streak_100", 100), (.streak, "streak_365", 365),
   (.habits, "first_habit", 1), (.habits, "habits_50", 50),
   (.habits, "habits_100", 100), (.habits, "habits_500", 500),
   (.habits, "habits_1000", 1000),
   (.level, "level_5", 5), (.level, "level_10", 10), (.level, "level_20", 20),
   (.level, "level_50", 50),
   (.signupAge, "week_1", 7), (.signupAge, "month_1", 30),
   (.signupAge, "month_6", 180), (.signupAge, "year_1", 365)]

/-- The `user.global_streak >= days` / `total_completed >= count` /
`user.level >= lvl` / `days_since_signup >= days` comparisons, read from the
current (possibly already mutated) state as in the source. -/
def checkHolds (s : AchState) (kind : CheckKind) (threshold : Nat) : Bool :=
  match kind with
  | .streak => threshold ≤ s.user.globalStreak
  | .habits => threshold ≤ s.totalCompleted
  | .level => threshold ≤ s.user.level
  | .signupAge => threshold ≤ s.daysSinceSignup

/-- The evaluator's loops: `snapshot` is the `unlocked_codes` set built once
at the top of the call; each satisfied, not-yet-snapshotted check runs
`_unlock` and its non-`None` results are collected (the source appends the
raw results and filters `None` at the end). -/
def runChecks (snapshot : List String) :
    List (CheckKind × String × Nat) → AchState → AchState × List String
  | [], s => (s, [])
  | (kind, code, threshold) :: rest, s =>
    if !snapshot.contains code && checkHolds s kind threshold then
      let step := unlockOne s code
      let rest' := runChecks snapshot rest step.1
      (rest'.1, step.2.toList ++ rest'.2)
    else
      runChecks snapshot rest s

/-- `check_and_unlock_achievements(db, user)`: returns the persisted state
and the list of newly unlocked codes. -/
def check_and_unlock_achievements (s : AchState) : AchState × List String :=
  runChecks s.unlocked achievement_checks s

/-! ## Entry points -/

/-- The database-and-user context an entry point operates in:
the current user row, the habit and log tables, the user's unlocked
achievement codes, and the account age in days. -/
structure St where
  user : User
  habits : List Habit
  logs : List HabitLog
  unlocked : List String
  daysSinceSignup : Nat
deriving Repr, DecidableEq

/-- REST entry point `POST /habits/log` (`main.py log_habit`), after
authentication: `none` is the 404 on a foreign or missing habit.
`quantity` and `noteArg` are the optional `quantity_logged` / `note` fields
of the request body; `now` is `datetime.utcnow()`. -/
def log_habit (st : St) (habitId d : Nat) (completedArg : Bool)
    (quantity : Option Nat) (noteArg : Option String) (now : Nat) : Option St :=
  match findHabit st.habits st.user.id habitId with
  | none => none
  | some habit =>
    let log? := findLog st.logs habitId d
    let was_already_completed := match log? with
      | some l => l.completed
      | none => false
    let row : HabitLog := match log? with
      | some l =>
        { l with completed := completedArg,
                 quantityLogged := match quantity with
                   | some q => q
                   | none => l.quantityLogged,
                 note := match noteArg with
                   | some n => some n
                   | none => l.note,
                 completedAt :=
                   if completedArg && !was_already_completed then some now
                   else l.completedAt }
      | none =>
        { userId := st.user.id, habitId := habitId, date := d,
          completed := completedArg,
          quantityLogged := quantity.getD 0, note := noteArg,
          completedAt := if completedArg then some now else none }
    let logs1 := upsertLog st.logs habitId d row
    if completedArg && !was_already_completed then
      let habit1 := update_habit_streak logs1 habit true d
      let habits1 := replaceHabit st.habits habit1
      let user1 := update_global_streak habits1 logs1 st.user d
      let user2 := (award_xp user1 "habit_complete" habit1.currentStreak).1
      let todayApplicable :=
        (active_habits habits1 st.user.id).filter (fun h => habit_applies_today h d)
      let todayCompleted :=
        (logs1.filter (fun l =>
          l.userId == st.user.id && l.date == d && l.completed
            && todayApplicable.any (fun h => h.id == l.habitId))).length
      let user3 :=
        if todayApplicable.length ≤ todayCompleted && 0 < todayApplicable.length then
          (award_xp user2 "all_habits_complete" user2.globalStreak).1
        else user2
      let ach := check_and_unlock_achievements
        { user := user3,
          totalCompleted := countCompletedLogs logs1 st.user.id,
          daysSinceSignup := st.daysSinceSignup,
          unlocked := st.unlocked }
      some { st with user := ach.1.user, habits := habits1, logs := logs1,
                     unlocked := ach.1.unlocked }
    else if !completedArg && was_already_completed then
      let habit1 := update_habit_streak logs1 habit false d
      some { st with habits := replaceHabit st.habits habit1, logs := logs1 }
    else
      some { st with logs := logs1 }

/-- Bot entry point `_mark_habit(db, user, habit_id, today, completed)`
(`bot.py`): a missing habit silently returns. -/
def mark_habit (st : St) (habitId d : Nat) (completed : Bool) (now : Nat) : St :=
  match findHabit st.habits st.user.id habitId with
  | none => st
  | some habit =>
    let row : HabitLog := match findLog st.logs habitId d with
      | some l =>
        { l with completed := completed,
                 completedAt := if completed then some now else none }
      | none =>
        { userId := st.user.id, habitId := habitId, date := d,
          completed := completed, quantityLogged := 0, note := none,
          completedAt := if completed then some now else none }
    let logs1 := upsertLog st.logs habitId d row
    if completed then
      let habit1 := update_habit_streak logs1 habit true d
      let habits1 := replaceHabit st.habits habit1
      let user1 := update_global_streak habits1 logs1 st.user d
      let user2 := (award_xp user1 "habit_complete" habit1.currentStreak).1
      { st with user := user2, habits := habits1, logs := logs1 }
    else
      let habit1 := update_habit_streak logs1 habit false d
      { st with habits := replaceHabit st.habits habit1, logs := logs1 }

/-- Bot entry point `_increment_habit_quantity(db, user, habit_id, today)`
(`bot.py`): +1 to the day's quantity, auto-completing when a truthy
`target_quantity` is reached (Python's `habit.target_quantity and …` treats
`None` and `0` as false). -/
def increment_habit_quantity (st : St) (habitId d : Nat) (now : Nat) : St :=
  match findHabit st.habits st.user.id habitId with
  | none => st
  | some habit =>
    let row : HabitLog := match findLog st.logs habitId d with
      | some l =>
        let l1 := { l with quantityLogged := l.quantityLogged + 1 }
        match habit.targetQuantity with
        | some target =>
          if 0 < target && target ≤ l1.quantityLogged then
            { l1 with completed := true, completedAt := some now }
          else l1
        | none => l1
      | none =>
        let is_complete := match habit.targetQuantity with
          | some target => 0 < target && target ≤ 1
          | none => false
        { userId := st.user.id, habitId := habitId, date := d,
          completed := is_complete, quantityLogged := 1, note := none,
          completedAt := if is_complete then some now else none }
    let logs1 := upsertLog st.logs habitId d row
    if row.completed then
      let habit1 := update_habit_streak logs1 habit true d
      let habits1 := replaceHabit st.habits habit1
      let user1 := update_global_streak habits1 logs1 st.user d
      let user2 := (award_xp user1 "habit_complete" habit1.currentStreak).1
      { st with user := user2, habits := habits1, logs := logs1 }
    else
      { st with logs := logs1 }

/-! ## Midnight reconciliation (`scheduler.py midnight_check`) -/

/-- The per-user body of `midnight_check`, including the selection filter of
its user query (`telegram_id != None`, `mode != "vacation"`); `yesterday` is
the day being settled.  Returns the persisted user and the payload of the
streak-broken notification (the old streak), `none` when no message is
sent. -/
def midnight_process (habits : List Habit) (logs : List HabitLog)
    (u : User) (yesterday : Nat) : User × Option Nat :=
  if u.telegramId.isSome && u.mode != "vacation" then
    let all_done := check_all_completed habits logs u.id yesterday
    if !all_done && 0 < u.globalStreak then
      ({ u with globalStreak := 0 },
        if 3 ≤ u.globalStreak then some u.globalStreak else none)
    else (u, none)
  else (u, none)

/-! ## Concrete fixtures used by counterexamples and witnesses -/

/-- A linked, non-vacation user with a 1-day streak and no XP. -/
def userA : User :=
  { id := 1, xp := 0, level := 1, globalStreak := 1, bestGlobalStreak := 1,
    mode := "normal", telegramId := some "111" }

/-- A daily boolean habit of `userA` with a 1-day streak. -/
def habitA : Habit :=
  { id := 1, userId := 1, habitType := "boolean", targetQuantity := none,
    frequency := "daily", specificDays := none, currentStreak := 1,
    bestStreak := 1, active := true, archived := false }

/-- `habitA`'s log for day 10, already completed and stamped at instant 100. -/
def logA : HabitLog :=
  { userId := 1, habitId := 1, date := 10, completed := true,
    quantityLogged := 0, note := none, completedAt := some 100 }

/-- State in which `habitA` is already completed for day 10. -/
def stA : St :=
  { user := userA, habits := [habitA], logs := [logA], unlocked := [],
    daysSinceSignup := 0 }

/-- `habitA`'s log for day 9, also completed. -/
def logA9 : HabitLog :=
  { userId := 1, habitId := 1, date := 9, completed := true,
    quantityLogged := 0, note := none, completedAt := some 90 }

/-- Like `stA` but with yesterday (day 9) also completed. -/
def stA2 : St := { stA with logs := [logA, logA9] }

/-- A user with a positive streak but no linked Telegram account. -/
def userB : User :=
  { id := 2, xp := 0, level := 1, globalStreak := 5, bestGlobalStreak := 7,
    mode := "normal", telegramId := none }

/-- A daily habit of `userB`. -/
def habitB : Habit :=
  { id := 2, userId := 2, habitType := "boolean", targetQuantity := none,
    frequency := "daily", specificDays := none, currentStreak := 0,
    bestStreak := 0, active := true, archived := false }

/-- `userB` with a linked Telegram account. -/
def userBLinked : User := { userB with telegramId := some "222" }

/-- A user with no streak yet. -/
def userC : User :=
  { id := 3, xp := 0, level := 1, globalStreak := 0, bestGlobalStreak := 0,
    mode := "normal", telegramId := some "333" }

/-- A Mondays-only habit of `userC` (applicable only when `d % 7 = 0`). -/
def habitC : Habit :=
  { id := 3, userId := 3, habitType := "boolean", targetQuantity := none,
    frequency := "specific_days", specificDays := some ["mon"],
    currentStreak := 0, bestStreak := 0, active := true, archived := false }

/-- Achievement-evaluator state of a level-4 user whose pending time
milestones (200 days since signup) carry enough XP to cross level 5. -/
def achStateA : AchState :=
  { user := { id := 1, xp := 900, level := 4, globalStreak := 0,
              bestGlobalStreak := 0, mode := "normal", telegramId := none },
    totalCompleted := 0, daysSinceSignup := 200, unlocked := [] }

/-- State in which `userA` has a boolean habit and no log yet for day 10. -/
def stB : St :=
  { user := userA, habits := [habitA], logs := [], unlocked := [],
    daysSinceSignup := 0 }

/-! ## Leveling lemmas -/

theorem levelLoop_eq_levelAux (fuel : Nat) :
    ∀ k rem, rem ≤ fuel * 100 → levelLoop fuel k rem = levelAux k rem := by
  induction fuel with
  | zero =>
    intro k rem h
    have hrem : rem = 0 := by omega
    subst hrem
    rw [levelLoop, levelAux, dif_neg]
    simp [xp_for_next_level]
  | succ fuel ih =>
    intro k rem h
    rw [levelLoop]
    by_cases hc : xp_for_next_level (k + 1) ≤ rem
    · rw [if_pos hc, levelAux, dif_pos hc]
      refine ih (k + 1) _ ?_
      simp only [xp_for_next_level] at hc ⊢
      omega
    · rw [if_neg hc, levelAux, dif_neg hc]

theorem calculate_level_eq_levelAux (total_xp : Nat) :
    calculate_level total_xp = levelAux 0 total_xp :=
  levelLoop_eq_levelAux (total_xp / 100 + 1) 0 total_xp (by omega)

theorem levelAux_ge (k rem : Nat) : k + 1 ≤ levelAux k rem := by
  induction k, rem using levelAux.induct with
  | case1 k rem h ih =>
    rw [levelAux, dif_pos h]
    omega
  | case2 k rem h =>
    rw [levelAux, dif_neg h]

theorem levelAux_mono (k rem' : Nat) :
    ∀ rem, rem ≤ rem' → levelAux k rem ≤ levelAux k rem' := by
  induction k, rem' using levelAux.induct with
  | case1 k rem' h ih =>
    intro rem hle
    conv_rhs => rw [levelAux]
    rw [dif_pos h]
    by_cases h2 : xp_for_next_level (k + 1) ≤ rem
    · rw [levelAux, dif_pos h2]
      exact ih _ (by omega)
    · rw [levelAux, dif_neg h2]
      exact le_trans (by omega) (levelAux_ge (k + 1) _)
  | case2 k rem' h =>
    intro rem hle
    have h2 : ¬ xp_for_next_level (k + 1) ≤ rem := fun hc => h (le_trans hc hle)
    rw [levelAux, dif_neg h2]
    conv_rhs => rw [levelAux]
    rw [dif_neg h]

theorem calculate_level_mono {xp1 xp2 : Nat} (h : xp1 ≤ xp2) :
    calculate_level xp1 ≤ calculate_level xp2 := by
  rw [calculate_level_eq_levelAux, calculate_level_eq_levelAux]
  exact levelAux_mono 0 xp2 xp1 h

theorem levelAux_sum (n : Nat) :
    ∀ k, levelAux k (∑ j in Finset.range n, xp_for_next_level (k + 1 + j)) = k + n + 1 := by
  induction n with
  | zero =>
    intro k
    rw [Finset.range_zero, Finset.sum_empty, levelAux, dif_neg]
    simp [xp_for_next_level]
  | succ n ih =>
    intro k
    rw [Finset.sum_range_succ']
    have e1 : (∑ j in Finset.range n, xp_for_next_level (k + 1 + (j + 1)))
        = ∑ j in Finset.range n, xp_for_next_level (k + 1 + 1 + j) :=
      Finset.sum_congr rfl (fun j _ => by rw [show k + 1 + (j + 1) = k + 1 + 1 + j by omega])
    rw [e1, Nat.add_zero, levelAux, dif_pos (Nat.le_add_left _ _), Nat.add_sub_cancel,
      ih (k + 1)]
    omega

/-- C8: for every level L at least 1, `calculate_level` applied to the exact
cumulative threshold, the sum for k = 1..L of `xp_for_next_level(k)` =
k * 100, returns exactly L + 1: crossing the exact cumulative threshold
always levels up. -/
theorem c8_level_round_trip (L : Nat) (hL : 1 ≤ L) :
    calculate_level (∑ k in Finset.range L, xp_for_next_level (k + 1)) = L + 1 := by
  have _hL := hL
  rw [calculate_level_eq_levelAux]
  have h := levelAux_sum L 0
  have e : (∑ j in Finset.range L, xp_for_next_level (0 + 1 + j))
      = ∑ k in Finset.range L, xp_for_next_level (k + 1) :=
    Finset.sum_congr rfl (fun j _ => by rw [show 0 + 1 + j = j + 1 by omega])
  rw [e] at h
  omega

/-- Witness for C8 at L = 3 (threshold 100 + 200 + 300 = 600). -/
theorem c8_witness :
    1 ≤ 3 ∧ calculate_level (∑ k in Finset.range 3, xp_for_next_level (k + 1)) = 3 + 1 :=
  ⟨by decide, c8_level_round_trip 3 (by decide)⟩

/-! ## C6: the level cache matches the XP after every engine XP mutation -/

theorem level_refresh (user : User) (t : Nat)
    (hinv : user.level = calculate_level user.xp) :
    (if user.level < calculate_level (user.xp + t) then calculate_level (user.xp + t)
     else user.level) = calculate_level (user.xp + t) := by
  have hmono := calculate_level_mono (Nat.le_add_right user.xp t)
  split
  · rfl
  · omega

/-- C6: after every XP mutation performed by the engine — `award_xp` for an
action, and the direct achievement XP grant inside `_unlock` — the invariant
`user.level = calculate_level user.xp` holds, assuming it held before the
mutation. -/
theorem c6_level_invariant :
    (∀ (user : User) (action : String) (streak : Nat),
        user.level = calculate_level user.xp →
        (award_xp user action streak).1.level =
          calculate_level (award_xp user action streak).1.xp) ∧
    (∀ (s : AchState) (code : String),
        s.user.level = calculate_level s.user.xp →
        (unlockOne s code).1.user.level =
          calculate_level (unlockOne s code).1.user.xp) := by
  constructor
  · intro user action streak hinv
    unfold award_xp
    by_cases hbase : XP_REWARDS action = 0
    · rw [if_pos hbase]
      exact hinv
    · rw [if_neg hbase]
      dsimp only
      exact level_refresh user _ hinv
  · intro s code hinv
    unfold unlockOne
    split
    · exact hinv
    · split
      · exact hinv
      · dsimp only
        split
        · rfl
        · exact hinv

/-- Witness for C6: a streak-multiplied action award on `userA` and the
streak-3 achievement grant on `achStateA`, both starting from states where
the invariant holds. -/
theorem c6_witness :
    (userA.level = calculate_level userA.xp ∧
      (award_xp userA "habit_complete" 8).1.level =
        calculate_level (award_xp userA "habit_complete" 8).1.xp) ∧
    (achStateA.user.level = calculate_level achStateA.user.xp ∧
      (unlockOne achStateA "streak_3").1.user.level =
        calculate_level (unlockOne achStateA "streak_3").1.user.xp) :=
  ⟨⟨by decide, c6_level_invariant.1 userA "habit_complete" 8 (by decide)⟩,
   ⟨by decide, c6_level_invariant.2 achStateA "streak_3" (by decide)⟩⟩

/-! ## C10: reported XP versus XP actually added by `award_xp` -/

theorem XP_REWARDS_zero_or_ge_five (action : String) :
    XP_REWARDS action = 0 ∨ 5 ≤ XP_REWARDS action := by
  unfold XP_REWARDS
  split <;> omega

theorem get_streak_multiplier_q4_cases (streak : Nat) :
    get_streak_multiplier_q4 streak = 4 ∨ 6 ≤ get_streak_multiplier_q4 streak := by
  unfold get_streak_multiplier_q4 STREAK_MULTIPLIERS
  simp only [List.foldl_cons, List.foldl_nil]
  split_ifs <;> omega

/-- C10: for every action with a positive base reward and a streak whose
multiplier exceeds 1 (in quarter units, exceeds 4), `award_xp` adds
`floor(base * multiplier)` = `base * quarters / 4` to `user.xp`, while the
`xp_earned` field of the returned dictionary is the unmultiplied base (the
multiplied amount appears only in `total_xp`), so the reported earned XP is
strictly below the XP actually added. -/
theorem c10_award_xp_reporting (user : User) (action : String) (streak : Nat)
    (hbase : 0 < XP_REWARDS action) (hstreak : 0 < streak)
    (hmult : 4 < get_streak_multiplier_q4 streak) :
    (award_xp user action streak).1.xp
      = user.xp + XP_REWARDS action * get_streak_multiplier_q4 streak / 4 ∧
    (award_xp user action streak).2.xp_earned = XP_REWARDS action ∧
    (award_xp user action streak).2.total_xp
      = XP_REWARDS action * get_streak_multiplier_q4 streak / 4 ∧
    (award_xp user action streak).2.xp_earned
      < (award_xp user action streak).2.total_xp := by
  have hb5 : 5 ≤ XP_REWARDS action := by
    rcases XP_REWARDS_zero_or_ge_five action with h | h
    · omega
    · exact h
  have hq6 : 6 ≤ get_streak_multiplier_q4 streak := by
    rcases get_streak_multiplier_q4_cases streak with h | h
    · omega
    · exact h
  unfold award_xp
  rw [if_neg (by omega)]
  dsimp only
  rw [if_pos hstreak]
  refine ⟨rfl, rfl, rfl, ?_⟩
  have h1 : XP_REWARDS action * 6 ≤ XP_REWARDS action * get_streak_multiplier_q4 streak :=
    Nat.mul_le_mul_left _ hq6
  have h2 : XP_REWARDS action * 6 / 4
      ≤ XP_REWARDS action * get_streak_multiplier_q4 streak / 4 :=
    Nat.div_le_div_right h1
  omega

/-- Witness for C10: `habit_complete` (base 10) at streak 8
(multiplier 1.5, so 15 XP added, 10 reported). -/
theorem c10_witness :
    (0 < XP_REWARDS "habit_complete" ∧ 0 < 8 ∧ 4 < get_streak_multiplier_q4 8) ∧
    ((award_xp userA "habit_complete" 8).1.xp
        = userA.xp + XP_REWARDS "habit_complete" * get_streak_multiplier_q4 8 / 4 ∧
      (award_xp userA "habit_complete" 8).2.xp_earned = XP_REWARDS "habit_complete" ∧
      (award_xp userA "habit_complete" 8).2.total_xp
        = XP_REWARDS "habit_complete" * get_streak_multiplier_q4 8 / 4 ∧
      (award_xp userA "habit_complete" 8).2.xp_earned
        < (award_xp userA "habit_complete" 8).2.total_xp) :=
  ⟨⟨by decide, by decide, by decide⟩,
   c10_award_xp_reporting userA "habit_complete" 8 (by decide) (by decide) (by decide)⟩

/-! ## C4: no mid-day reset of the global streak -/

/-- C4: for every user with at least one active, applicable habit whose log
for the day is not completed, `update_global_streak` is the identity on the
user — and hence any number of calls on that date leaves `global_streak`
(and the whole user row) unchanged. -/
theorem c4_no_midday_reset (habits : List Habit) (logs : List HabitLog)
    (user : User) (d : Nat) (habit : Habit)
    (hmem : habit ∈ active_habits habits user.id)
    (happ : habit_applies_today habit d = true)
    (hnolog : hasCompletedLog logs habit.id d = false) :
    update_global_streak habits logs user d = user ∧
    ∀ n, (fun u => update_global_streak habits logs u d)^[n] user = user := by
  have h1 : update_global_streak habits logs user d = user := by
    unfold update_global_streak
    have hne : ¬ (active_habits habits user.id).isEmpty = true := by
      simp only [List.isEmpty_iff]
      exact List.ne_nil_of_mem hmem
    rw [if_neg hne]
    dsimp only
    have hall : (active_habits habits user.id).all
        (fun h => !habit_applies_today h d || hasCompletedLog logs h.id d) = false := by
      rw [List.all_eq_false]
      exact ⟨habit, hmem, by simp [happ, hnolog]⟩
    simp [hall]
  refine ⟨h1, ?_⟩
  intro n
  induction n with
  | zero => rfl
  | succ n ih =>
    rw [Function.iterate_succ_apply', ih]
    exact h1

/-- Witness for C4: `userA` with the single applicable habit `habitA` and an
empty log table. -/
theorem c4_witness :
    (habitA ∈ active_habits [habitA] userA.id ∧
      habit_applies_today habitA 10 = true ∧
      hasCompletedLog [] habitA.id 10 = false) ∧
    (update_global_streak [habitA] [] userA 10 = userA ∧
      ∀ n, (fun u => update_global_streak [habitA] [] u 10)^[n] userA = userA) :=
  ⟨⟨by decide, by decide, by decide⟩,
   c4_no_midday_reset [habitA] [] userA 10 habitA (by decide) (by decide) (by decide)⟩

/-! ## C2: midnight reconciliation -/

/-- C2 counterexample: `userB` is not in vacation mode, has a positive
global streak (5) and did not complete all applicable habits on day 10
(its daily habit `habitB` has no log at all), yet `midnight_check` leaves
the streak untouched because the user has no linked Telegram id: the
reconciliation query filters on `telegram_id != None`, so the reset the
claim promises for every non-vacation user does not happen. -/
theorem c2_counterexample :
    userB.mode ≠ "vacation" ∧ 0 < userB.globalStreak ∧
    check_all_completed [habitB] [] userB.id 10 = false ∧
    midnight_process [habitB] [] userB 10 = (userB, none) ∧
    (midnight_process [habitB] [] userB 10).1.globalStreak ≠ 0 := by
  decide

/-- C2 amended: for every user with a linked Telegram id who is not in
vacation mode, did not complete all applicable habits on the day just
ended, and has a positive global streak, midnight reconciliation resets
`global_streak` to 0, emits the streak-broken notification carrying the old
streak exactly when the old streak is at least 3, and leaves
`best_global_streak` unchanged. -/
theorem c2_amended_midnight_reset (habits : List Habit) (logs : List HabitLog)
    (u : User) (yesterday : Nat)
    (htg : u.telegramId.isSome = true) (hmode : u.mode ≠ "vacation")
    (hincomplete : check_all_completed habits logs u.id yesterday = false)
    (hstreak : 0 < u.globalStreak) :
    (midnight_process habits logs u yesterday).1.globalStreak = 0 ∧
    (midnight_process habits logs u yesterday).1.bestGlobalStreak
      = u.bestGlobalStreak ∧
    (midnight_process habits logs u yesterday).2
      = if 3 ≤ u.globalStreak then some u.globalStreak else none := by
  unfold midnight_process
  have h1 : (u.telegramId.isSome && u.mode != "vacation") = true := by
    simp [htg, hmode]
  rw [if_pos h1]
  dsimp only
  have h2 : (!check_all_completed habits logs u.id yesterday
      && decide (0 < u.globalStreak)) = true := by
    simp [hincomplete, hstreak]
  rw [if_pos h2]
  exact ⟨rfl, rfl, rfl⟩

/-- Witness for the amended C2: `userBLinked` (streak 5, best 7, linked,
normal mode) with an incomplete day 10. -/
theorem c2_witness :
    (userBLinked.telegramId.isSome = true ∧ userBLinked.mode ≠ "vacation" ∧
      check_all_completed [habitB] [] userBLinked.id 10 = false ∧
      0 < userBLinked.globalStreak) ∧
    ((midnight_process [habitB] [] userBLinked 10).1.globalStreak = 0 ∧
      (midnight_process [habitB] [] userBLinked 10).1.bestGlobalStreak
        = userBLinked.bestGlobalStreak ∧
      (midnight_process [habitB] [] userBLinked 10).2
        = if 3 ≤ userBLinked.globalStreak then some userBLinked.globalStreak else none) :=
  ⟨⟨by decide, by decide, by decide, by decide⟩,
   c2_amended_midnight_reset [habitB] [] userBLinked 10
     (by decide) (by decide) (by decide) (by decide)⟩

/-! ## C3: a day with zero applicable habits -/

/-- C3 counterexample: `userC` has exactly one active, non-archived habit
(`habitC`, Mondays only) and day 9 is a Wednesday, so no habit is
applicable — yet `update_global_streak` does change the user: the
all-completed loop skips every inapplicable habit and is left vacuously
true, so the streak is set to 1 (and the best streak raised), contradicting
the claim that such a day neither extends nor breaks the streak. -/
theorem c3_counterexample :
    active_habits [habitC] userC.id ≠ [] ∧
    (∀ h ∈ active_habits [habitC] userC.id, habit_applies_today h 9 = false) ∧
    update_global_streak [habitC] [] userC 9 ≠ userC ∧
    (update_global_streak [habitC] [] userC 9).globalStreak = 1 ∧
    userC.globalStreak = 0 := by
  decide

/-- C3 amended: for every user with at least one active non-archived habit
none of which is applicable on the given date, `update_global_streak`
treats the day as fully completed: it sets `global_streak` to
`global_streak + 1` when yesterday's all-completed predicate holds (a
predicate that is itself vacuously true on a zero-applicable yesterday) and
to 1 otherwise, raises `best_global_streak` to the maximum of itself and
the new streak, and leaves `xp` and `level` unchanged.  Only a user with
zero active habits makes the function a no-op. -/
theorem c3_amended_vacuous_day (habits : List Habit) (logs : List HabitLog)
    (user : User) (d : Nat)
    (hne : active_habits habits user.id ≠ [])
    (hnone : ∀ h ∈ active_habits habits user.id, habit_applies_today h d = false) :
    (update_global_streak habits logs user d).globalStreak
      = (if check_all_completed habits logs user.id (d - 1)
         then user.globalStreak + 1 else 1) ∧
    (update_global_streak habits logs user d).bestGlobalStreak
      = max user.bestGlobalStreak
          (if check_all_completed habits logs user.id (d - 1)
           then user.globalStreak + 1 else 1) ∧
    (update_global_streak habits logs user d).xp = user.xp ∧
    (update_global_streak habits logs user d).level = user.level := by
  unfold update_global_streak
  have hni : ¬ (active_habits habits user.id).isEmpty = true := by
    simp only [List.isEmpty_iff]
    exact hne
  rw [if_neg hni]
  dsimp only
  have hall : (active_habits habits user.id).all
      (fun h => !habit_applies_today h d || hasCompletedLog logs h.id d) = true := by
    rw [List.all_eq_true]
    intro h hm
    simp [hnone h hm]
  rw [if_pos hall]
  split_ifs with hy hb hb <;> simp_all <;> omega

/-- Witness for the amended C3: `userC` with only the Mondays-only `habitC`
on Wednesday day 9. -/
theorem c3_witness :
    (active_habits [habitC] userC.id ≠ [] ∧
      (∀ h ∈ active_habits [habitC] userC.id, habit_applies_today h 9 = false)) ∧
    ((update_global_streak [habitC] [] userC 9).globalStreak
        = (if check_all_completed [habitC] [] userC.id 8
           then userC.globalStreak + 1 else 1) ∧
      (update_global_streak [habitC] [] userC 9).bestGlobalStreak
        = max userC.bestGlobalStreak
            (if check_all_completed [habitC] [] userC.id 8
             then userC.globalStreak + 1 else 1) ∧
      (update_global_streak [habitC] [] userC 9).xp = userC.xp ∧
      (update_global_streak [habitC] [] userC 9).level = userC.level) :=
  ⟨⟨by decide, by decide⟩,
   c3_amended_vacuous_day [habitC] [] userC 9 (by decide) (by decide)⟩

/-! ## Ledger lemmas -/

theorem findLog_keys (logs : List HabitLog) (habitId d : Nat) (l : HabitLog)
    (h : findLog logs habitId d = some l) : l.habitId = habitId ∧ l.date = d := by
  have hp := List.find?_some h
  simp only [Bool.and_eq_true, beq_iff_eq] at hp
  exact hp

theorem findLog_upsertLog (logs : List HabitLog) (habitId d : Nat) (row : HabitLog)
    (h1 : row.habitId = habitId) (h2 : row.date = d) :
    findLog (upsertLog logs habitId d row) habitId d = some row := by
  induction logs with
  | nil =>
    unfold upsertLog findLog
    rw [List.find?_cons_of_pos]
    simp [h1, h2]
  | cons l ls ih =>
    unfold upsertLog
    by_cases hl : (l.habitId == habitId && l.date == d) = true
    · rw [if_pos hl]
      unfold findLog
      rw [List.find?_cons_of_pos]
      simp [h1, h2]
    · rw [if_neg hl]
      unfold findLog
      rw [List.find?_cons_of_neg]
      · exact ih
      · simpa using hl

/-! ## C1: same-day re-mark across the two entry points -/

/-- C1: concrete evidence that the bot entry point violates the idempotence
the claim asserts for every entry point, while the REST entry point obeys
it.  `logA` (day 10) is already completed and stamped at instant 100;
re-marking it complete through the bot (`mark_habit`) grants the 10 XP of
`habit_complete` again, re-stamps `completed_at` to the current instant
200, and — when yesterday is also completed, state `stA2` — bumps
`current_streak` from 1 to 2, because `_mark_habit` has no
`was_already_completed` guard.  The REST endpoint `log_habit` on the same
input returns the state completely unchanged. -/
theorem c1_bot_remark_not_idempotent :
    logA.completed = true ∧ logA.completedAt = some 100 ∧
    habitA.currentStreak = 1 ∧
    (mark_habit stA 1 10 true 200).user.xp = stA.user.xp + 10 ∧
    ((findLog (mark_habit stA 1 10 true 200).logs 1 10).map
      (fun l => l.completedAt)) = some (some 200) ∧
    ((mark_habit stA2 1 10 true 200).habits.map (fun h => h.currentStreak)) = [2] ∧
    log_habit stA 1 10 true none none 200 = some stA := by
  decide

/-! ## C5: `completed_at` stamping semantics -/

/-- C5 counterexample: at the REST entry point, un-marking an
already-completed habit (a true→false transition) does not clear
`completed_at`: `logA` was stamped at instant 100 and is still stamped 100
after `log_habit` records `completed = false` at instant 200, where the
claim requires the timestamp to be cleared to null. -/
theorem c5_counterexample :
    logA.completed = true ∧
    ((log_habit stA 1 10 false none none 200).map
      (fun s => (findLog s.logs 1 10).map (fun l => l.completedAt)))
      = some (some (some 100)) ∧
    ((log_habit stA 1 10 false none none 200).map
      (fun s => (findLog s.logs 1 10).map (fun l => l.completedAt)))
      ≠ some (some none) := by
  decide

/-- C5 amended: the two entry points disagree and neither matches the claim
in full.  At the REST entry point (`log_habit`), `completed_at` is stamped
with the current instant on a false→true transition and left unchanged both
on a true→true re-save and on a true→false un-mark (it is never cleared).
At the bot entry point (`mark_habit`), `completed_at` is set to the current
instant whenever the request marks the habit complete — including a
true→true re-save, which re-stamps it — and cleared whenever the request
un-marks it. -/
theorem c5_amended (st : St) (habitId d : Nat) (qty : Option Nat)
    (noteArg : Option String) (now : Nat) (habit : Habit) (log : HabitLog)
    (hhabit : findHabit st.habits st.user.id habitId = some habit)
    (hlog : findLog st.logs habitId d = some log) :
    (log.completed = false →
      (log_habit st habitId d true qty noteArg now).map
        (fun s => (findLog s.logs habitId d).map (fun l => l.completedAt))
        = some (some (some now))) ∧
    (log.completed = true →
      (log_habit st habitId d true qty noteArg now).map
        (fun s => (findLog s.logs habitId d).map (fun l => l.completedAt))
        = some (some log.completedAt)) ∧
    (log.completed = true →
      (log_habit st habitId d false qty noteArg now).map
        (fun s => (findLog s.logs habitId d).map (fun l => l.completedAt))
        = some (some log.completedAt)) ∧
    ((findLog (mark_habit st habitId d true now).logs habitId d).map
        (fun l => l.completedAt) = some (some now)) ∧
    ((findLog (mark_habit st habitId d false now).logs habitId d).map
        (fun l => l.completedAt) = some none) := by
  obtain ⟨hk1, hk2⟩ := findLog_keys st.logs habitId d log hlog
  refine ⟨?_, ?_, ?_, ?_, ?_⟩
  · intro hc
    unfold log_habit
    rw [hhabit]
    dsimp only
    rw [hlog]
    dsimp only
    simp [hc, findLog_upsertLog, hk1, hk2]
  · intro hc
    unfold log_habit
    rw [hhabit]
    dsimp only
    rw [hlog]
    dsimp only
    simp [hc, findLog_upsertLog, hk1, hk2]
  · intro hc
    unfold log_habit
    rw [hhabit]
    dsimp only
    rw [hlog]
    dsimp only
    simp [hc, findLog_upsertLog, hk1, hk2]
  · unfold mark_habit
    rw [hhabit]
    dsimp only
    rw [hlog]
    dsimp only
    simp [findLog_upsertLog, hk1, hk2]
  · unfold mark_habit
    rw [hhabit]
    dsimp only
    rw [hlog]
    dsimp only
    simp [findLog_upsertLog, hk1, hk2]

/-- Witness for the amended C5: a true→true REST re-save on `stA` leaves
the timestamp of `logA` unchanged. -/
theorem c5_witness :
    (log_habit stA 1 10 true none none 200).map
      (fun s => (findLog s.logs 1 10).map (fun l => l.completedAt))
      = some (some logA.completedAt) :=
  (c5_amended stA 1 10 none none 200 habitA logA (by decide) (by decide)).2.1
    (by decide)

/-! ## C7: double evaluation of the achievement evaluator -/

theorem unlockOne_preserves_mem (s : AchState) (code c : String)
    (h : c ∈ s.unlocked) : c ∈ (unlockOne s code).1.unlocked := by
  unfold unlockOne
  split
  · exact h
  · split
    · exact h
    · exact List.mem_cons_of_mem _ h

theorem unlockOne_ret (s : AchState) (code c : String)
    (h : (unlockOne s code).2 = some c) :
    c = code ∧ c ∈ (unlockOne s code).1.unlocked := by
  unfold unlockOne at h ⊢
  revert h
  split
  · intro h
    exact absurd h (by simp)
  · split
    · intro h
      exact absurd h (by simp)
    · intro h
      have hc : code = c := by simpa using h
      subst hc
      exact ⟨rfl, List.mem_cons_self _ _⟩

theorem runChecks_preserves_mem (snapshot : List String)
    (cs : List (CheckKind × String × Nat)) :
    ∀ (s : AchState) (c : String), c ∈ s.unlocked →
      c ∈ (runChecks snapshot cs s).1.unlocked := by
  induction cs with
  | nil =>
    intro s c h
    simpa [runChecks] using h
  | cons hd tl ih =>
    obtain ⟨kind, code, threshold⟩ := hd
    intro s c h
    unfold runChecks
    split
    · exact ih _ c (unlockOne_preserves_mem s code c h)
    · exact ih s c h

theorem runChecks_ret_mem (snapshot : List String)
    (cs : List (CheckKind × String × Nat)) :
    ∀ (s : AchState) (c : String), c ∈ (runChecks snapshot cs s).2 →
      c ∈ (runChecks snapshot cs s).1.unlocked := by
  induction cs with
  | nil =>
    intro s c h
    simp [runChecks] at h
  | cons hd tl ih =>
    obtain ⟨kind, code, threshold⟩ := hd
    intro s c h
    unfold runChecks at h ⊢
    by_cases hcond : (!snapshot.contains code && checkHolds s kind threshold) = true
    · rw [if_pos hcond] at h ⊢
      dsimp only at h ⊢
      rw [List.mem_append] at h
      rcases h with h | h
      · cases hu : (unlockOne s code).2 with
        | none =>
          rw [hu] at h
          simp at h
        | some c0 =>
          rw [hu] at h
          simp only [Option.toList_some, List.mem_singleton] at h
          subst h
          exact runChecks_preserves_mem snapshot tl _ _ (unlockOne_ret s code c hu).2
      · exact ih _ c h
    · rw [if_neg hcond] at h ⊢
      exact ih s c h

theorem runChecks_ret_not_in_snapshot (snapshot : List String)
    (cs : List (CheckKind × String × Nat)) :
    ∀ (s : AchState) (c : String), c ∈ (runChecks snapshot cs s).2 →
      c ∉ snapshot := by
  induction cs with
  | nil =>
    intro s c h
    simp [runChecks] at h
  | cons hd tl ih =>
    obtain ⟨kind, code, threshold⟩ := hd
    intro s c h
    unfold runChecks at h
    by_cases hcond : (!snapshot.contains code && checkHolds s kind threshold) = true
    · rw [if_pos hcond] at h
      dsimp only at h
      rw [List.mem_append] at h
      rcases h with h | h
      · cases hu : (unlockOne s code).2 with
        | none =>
          rw [hu] at h
          simp at h
        | some c0 =>
          rw [hu] at h
          simp only [Option.toList_some, List.mem_singleton] at h
          subst h
          have hc : c = code := (unlockOne_ret s code c hu).1
          subst hc
          simp only [Bool.and_eq_true, Bool.not_eq_true'] at hcond
          simpa using hcond.1
      · exact ih _ c h
    · rw [if_neg hcond] at h
      exact ih s c h

/-- C7 counterexample: on `achStateA` the first evaluator call unlocks the
week-1, month-1 and month-6 time milestones, whose XP pushes the user from
level 4 to level 5 after the level checks have already run; with no other
state change, the second call then unlocks `level_5` and returns a
non-empty list, contradicting the claim that it creates no record and
returns an empty list. -/
theorem c7_counterexample :
    (check_and_unlock_achievements achStateA).2 = ["week_1", "month_1", "month_6"] ∧
    (check_and_unlock_achievements
        (check_and_unlock_achievements achStateA).1).2 = ["level_5"] ∧
    (check_and_unlock_achievements
        (check_and_unlock_achievements achStateA).1).2 ≠ [] := by
  decide

/-- C7 amended: running the evaluator twice in a row never unlocks the same
achievement twice — anything returned by the second call was not returned
by the first, so no duplicate `UserAchievement` row and no repeated XP
grant for one achievement occur — but the second call's list need not be
empty: an achievement whose XP was granted by a check that runs after the
level checks (a time milestone) can raise the level and leave a level
achievement to be claimed by the next call. -/
theorem c7_amended_no_reunlock (s : AchState) (c : String)
    (h2 : c ∈ (check_and_unlock_achievements
        (check_and_unlock_achievements s).1).2) :
    c ∉ (check_and_unlock_achievements s).2 := by
  intro h1
  have hmem : c ∈ (check_and_unlock_achievements s).1.unlocked :=
    runChecks_ret_mem s.unlocked achievement_checks s c h1
  have hns : c ∉ (check_and_unlock_achievements s).1.unlocked :=
    runChecks_ret_not_in_snapshot (check_and_unlock_achievements s).1.unlocked
      achievement_checks (check_and_unlock_achievements s).1 c h2
  exact hns hmem

/-- Witness for the amended C7: `level_5`, unlocked by the second call on
`achStateA`, was not among the first call's unlocks. -/
theorem c7_witness :
    ("level_5" : String) ∉ (check_and_unlock_achievements achStateA).2 :=
  c7_amended_no_reunlock achStateA "level_5" (by decide)

/-! ## C9: incrementing quantity on a boolean-type habit -/

/-- C9 counterexample: `habitA` is a boolean habit, yet the bot's increment
handler neither raises any error (the function has no error channel at all
— no `InvalidState` exists anywhere in the code) nor leaves the state
unchanged: it creates a day-10 log with `quantity_logged = 1`. -/
theorem c9_counterexample :
    habitA.habitType = "boolean" ∧
    increment_habit_quantity stB 1 10 200 ≠ stB ∧
    (findLog (increment_habit_quantity stB 1 10 200).logs 1 10).map
      (fun l => l.quantityLogged) = some 1 := by
  decide

/-- C9 amended: an increment request for a boolean-type habit (which has no
`target_quantity`) is silently coerced into a quantity update: when the
day's log is not already completed, the whole effect is to write back the
log with `quantity_logged` incremented (or a fresh uncompleted log with
`quantity_logged = 1`); no error is surfaced and no completion, streak or
XP change occurs. -/
theorem c9_amended_silent_increment (st : St) (habitId d now : Nat)
    (habit : Habit)
    (hhabit : findHabit st.habits st.user.id habitId = some habit)
    (htype : habit.habitType = "boolean")
    (htarget : habit.targetQuantity = none)
    (hnotdone : (findLog st.logs habitId d).all (fun l => !l.completed) = true) :
    increment_habit_quantity st habitId d now
      = { st with logs := (upsertLog st.logs habitId d
          (match findLog st.logs habitId d with
           | some l => { l with quantityLogged := l.quantityLogged + 1 }
           | none =>
             { userId := st.user.id, habitId := habitId, date := d,
               completed := false, quantityLogged := 1, note := none,
               completedAt := none })) } := by
  have _ht := htype
  unfold increment_habit_quantity
  rw [hhabit]
  dsimp only
  cases hfl : findLog st.logs habitId d with
  | none =>
    simp [htarget]
  | some l =>
    rw [hfl] at hnotdone
    have hlc : l.completed = false := by simpa using hnotdone
    simp [htarget, hlc]

/-- Witness for the amended C9: incrementing the boolean `habitA` on `stB`
(no log yet for day 10). -/
theorem c9_witness :
    (findHabit stB.habits stB.user.id 1 = some habitA ∧
      habitA.habitType = "boolean" ∧ habitA.targetQuantity = none ∧
      (findLog stB.logs 1 10).all (fun l => !l.completed) = true) ∧
    increment_habit_quantity stB 1 10 200
      = { stB with logs := (upsertLog stB.logs 1 10
          (match findLog stB.logs 1 10 with
           | some l => { l with quantityLogged := l.quantityLogged + 1 }
           | none =>
             { userId := stB.user.id, habitId := 1, date := 10,
               completed := false, quantityLogged := 1, note := none,
               completedAt := none })) } :=
  ⟨⟨by decide, by decide, by decide, by decide⟩,
   c9_amended_silent_increment stB 1 10 200 habitA
     (by decide) (by decide) (by decide) (by decide)⟩

end NexoTime
